import Mathlib

/-!
Verification of the levanter training core (`src/levanter/trainer.py`)
against its natural-language specification.

We shallowly embed the data model and the operations of the trainer:
pytrees of array leaves, the equinox partition/combine pair, the jmp
mixed-precision policy, the trainer hooks, the axis-resource mappings of
`TrainerConfig`, the learning-rate scheduler of `OptimizerConfig`, and the
`initial_state` / `train_step` / `training_steps` / `train` control flow.
External collaborators (checkpointer, optimizer, gradient accumulator,
batch loader, PRNG) are modelled as explicit oracle parameters, as the
spec treats them as opaque interfaces.
-/

namespace Levanter

/-! ## Array leaves and dtypes

A pytree leaf stands for a jax array: `val` is an opaque identity for its
contents, `dt` its dtype.  `is_inexact_arrayish` (from
`levanter.utils.jax_utils`) recognises floating-point array leaves. -/

inductive Dt where
  | f32 | bf16 | f16 | i32 | i64 | boolean
  deriving DecidableEq, Repr

def Dt.isFloat : Dt → Bool
  | .f32 => true
  | .bf16 => true
  | .f16 => true
  | _ => false

structure Leaf where
  val : Nat
  dt : Dt
  deriving DecidableEq, Repr

def is_inexact_arrayish (l : Leaf) : Bool := l.dt.isFloat

/-! ## Pytrees

A binary-tree model of jax pytrees.  A leaf holding `none` is the `None`
placeholder that `eqx.partition` / `eqx.filter` leave behind; a full model
has `some` at every leaf. -/

inductive PTree where
  | leaf : Option Leaf → PTree
  | node : PTree → PTree → PTree
  deriving DecidableEq, Repr

/-- Map a function over the (present) leaves of a pytree, as
`jax.tree_util.tree_map` does (placeholders are not leaves). -/
def PTree.mapLeaves (f : Leaf → Leaf) : PTree → PTree
  | .leaf none => .leaf none
  | .leaf (some l) => .leaf (some (f l))
  | .node a b => .node (a.mapLeaves f) (b.mapLeaves f)

/-- `eqx.filter t pred`: keep the leaves satisfying `pred`, replacing the
others (and only those) by the `None` placeholder. -/
def eqxFilter (p : Leaf → Bool) : PTree → PTree
  | .leaf none => .leaf none
  | .leaf (some l) => if p l then .leaf (some l) else .leaf none
  | .node a b => .node (eqxFilter p a) (eqxFilter p b)

/-- `eqx.partition(t, pred)`: split a pytree into the leaves satisfying
`pred` and the rest, each half padded with `None` placeholders. -/
def eqxPartition (t : PTree) (p : Leaf → Bool) : PTree × PTree :=
  (eqxFilter p t, eqxFilter (fun l => !p l) t)

/-- `eqx.combine(a, b)`: merge two congruent pytrees leaf-by-leaf,
preferring the first tree's leaf whenever it is not a placeholder.
Returns `none` when the two trees are not structurally congruent (which
raises in equinox). -/
def eqxCombine : PTree → PTree → Option PTree
  | .leaf a, .leaf b => some (.leaf (match a with | some l => some l | none => b))
  | .node a b, .node c d =>
    match eqxCombine a c, eqxCombine b d with
    | some l, some r => some (.node l r)
    | _, _ => none
  | _, _ => none

/-- Total version of `eqxCombine` used on code paths where the source
assumes congruence (combining the two halves of a partition, or a
checkpointed trainable half with a congruent model). -/
def eqxCombineD (a b : PTree) : PTree := (eqxCombine a b).getD (.leaf none)

/-! ## Trainable mask

`is_trainable_param` is a `FilterSpec`: either a per-leaf predicate or a
constant boolean.  `Trainer.partition_trainable_params` composes it with
`is_inexact_arrayish` via `trainable_and_diffable`. -/

inductive FilterSpec where
  | pred : (Leaf → Bool) → FilterSpec
  | const : Bool → FilterSpec

/-- `trainable_and_diffable` from `Trainer.partition_trainable_params`:
a callable mask is conjoined with `is_inexact_arrayish`; the constant
`True` becomes `is_inexact_arrayish`; any other constant is kept as is. -/
def trainable_and_diffable : FilterSpec → (Leaf → Bool)
  | .pred p => fun x => p x && is_inexact_arrayish x
  | .const true => is_inexact_arrayish
  | .const false => fun _ => false

/-- `Trainer.partition_trainable_params`: partition the model by the
combined trainable-and-differentiable mask. -/
def partition_trainable_params (spec : FilterSpec) (model : PTree) : PTree × PTree :=
  eqxPartition model (trainable_and_diffable spec)

/-- `Trainer.trainable_params_only`. -/
def trainable_params_only (spec : FilterSpec) (model : PTree) : PTree :=
  (partition_trainable_params spec model).1

/-! ## Mixed precision policy (jmp)

A `jmp.Policy` names three dtypes; `cast_to_param` / `cast_to_compute`
cast every floating-point leaf of a pytree to the corresponding dtype and
leave non-float leaves untouched. -/

structure Policy where
  param : Dt
  compute : Dt
  output : Dt
  deriving DecidableEq, Repr

def castLeafTo (d : Dt) (l : Leaf) : Leaf :=
  if l.dt.isFloat then { l with dt := d } else l

def Policy.cast_to_param (mp : Policy) (t : PTree) : PTree :=
  t.mapLeaves (castLeafTo mp.param)

def Policy.cast_to_compute (mp : Policy) (t : PTree) : PTree :=
  t.mapLeaves (castLeafTo mp.compute)

/-! ## Trainer state, step results and hooks -/

structure TrainerState where
  step : Nat
  model : PTree
  opt_state : PTree
  training_key : Nat
  deriving DecidableEq, Repr

structure StepInfo where
  state : TrainerState
  loss : ℚ
  step_duration : ℚ
  deriving DecidableEq, Repr

/-- `StepInfo.step`: the step that was just completed,
`state.step - 1` (an int in the source, so we use `ℤ`). -/
def StepInfo.step (info : StepInfo) : ℤ := (info.state.step : ℤ) - 1

/-- `StepInfo.next_step`. -/
def StepInfo.next_step (info : StepInfo) : ℕ := info.state.step

/-- A `_Hook`: callback (identified opaquely by `fn`) plus period `every`. -/
structure Hook where
  fn : Nat
  every : ℤ
  deriving DecidableEq, Repr

/-- `TrainerHooks.run_hooks`: walk the registered hooks in order and fire
each one whose guard `force or info.step % hook.every == 0` holds.  We
return the list of fired hooks in firing order. -/
def run_hooks (hooks : List Hook) (info : StepInfo) (force : Bool) : List Hook :=
  match hooks with
  | [] => []
  | h :: rest =>
    if force || (StepInfo.step info % h.every == 0) then
      h :: run_hooks rest info force
    else
      run_hooks rest info force

/-! ## Axis-resource mappings (`TrainerConfig`) -/

def ResourceAxisDATA : String := "data"
def ResourceAxisMODEL : String := "model"

/-- A python dict from logical axis names to physical axis names. -/
def AxisMap : Type := String → Option String

/-- `d[k] = v` on a dict. -/
def updateMap (m : AxisMap) (k v : String) : AxisMap :=
  fun x => if x = k then some v else m x

/-- Build a dict from a list of key/value pairs (later pairs win, as in
python dict construction). -/
def dictOf (ps : List (String × String)) : AxisMap :=
  ps.foldl (fun m kv => updateMap m kv.1 kv.2) (fun _ => none)

/-- The last value bound to `x` in a pair list, if any. -/
def lastVal (ps : List (String × String)) (x : String) : Option String :=
  ps.foldl (fun acc kv => if kv.1 = x then some kv.2 else acc) none

/-- The `fsdp_axis` field: `None`, one axis name, or a list of names. -/
inductive FsdpSpec where
  | noAxis : FsdpSpec
  | single : String → FsdpSpec
  | multi : List String → FsdpSpec

def FsdpSpec.contains : FsdpSpec → String → Prop
  | .noAxis, _ => False
  | .single s, y => y = s
  | .multi l, y => y ∈ l

/-- The fields of `TrainerConfig` that the verified claims depend on.
`load_checkpoint_path` is `some _` once `_validate_and_set_defaults` has
run (it defaults to the checkpointer's base path). -/
structure TrainerConfig where
  mp : Policy
  batch_axis : Option String
  fsdp_axis : FsdpSpec
  tensor_parallel_axes : Option (List String)
  axis_resources : List (String × String)
  parameter_axis_resources : List (String × String)
  num_train_steps : Nat
  load_checkpoint : Option Bool
  load_checkpoint_path : Option String
  ckptLoad : Option (PTree × (PTree × Nat) × Nat)

/-- `TrainerConfig.compute_axis_mapping`: start from `axis_resources`,
force every tensor-parallel axis to the model mesh axis, then force the
batch axis to the data mesh axis. -/
def compute_axis_mapping (cfg : TrainerConfig) : AxisMap :=
  let m := dictOf cfg.axis_resources
  let tp := cfg.tensor_parallel_axes.getD []
  let m := tp.foldl (fun m a => updateMap m a ResourceAxisMODEL) m
  match cfg.batch_axis with
  | some b => updateMap m b ResourceAxisDATA
  | none => m

/-- `TrainerConfig.parameter_axis_mapping`: start from the compute
mapping, overlay `parameter_axis_resources`, then force every FSDP axis
to the data mesh axis. -/
def parameter_axis_mapping (cfg : TrainerConfig) : AxisMap :=
  let m := compute_axis_mapping cfg
  let m := cfg.parameter_axis_resources.foldl (fun m kv => updateMap m kv.1 kv.2) m
  match cfg.fsdp_axis with
  | .noAxis => m
  | .single s => updateMap m s ResourceAxisDATA
  | .multi l => l.foldl (fun m a => updateMap m a ResourceAxisDATA) m

/-! ## Trainer, collaborators and the step engine

The optimizer, the gradient accumulator (`accumulate_gradients_sharded`,
which lives outside this repository slice) and the PRNG are opaque
collaborators; they appear as oracle fields/parameters.  `ckptLoad` on the
config is the external checkpointer's answer for the configured
`load_checkpoint_path`: the `(trainable_model, (opt_state, key), step)`
triple, or `none` when no checkpoint is found there. -/

/-- `jax.random.split(key)` modelled as a deterministic injective pairing:
the first component is the per-step subkey, the second the carried key. -/
def splitKey (k : Nat) : Nat × Nat := (2 * k + 1, 2 * k + 2)

/-- `eqx.apply_updates(model, updates)`: leaf-wise, keep the model leaf
where the update is a placeholder and add the update otherwise. -/
def apply_updates : PTree → PTree → PTree
  | .leaf p, .leaf u =>
    .leaf (match p, u with
           | some pl, some g => some { pl with val := pl.val + g.val }
           | p, _ => p)
  | .node a b, .node c d => .node (apply_updates a c) (apply_updates b d)
  | t, _ => t

/-- Errors raised on the trainer's construction and training paths. -/
inductive TrainerErr where
  | bothModelAndInit
  | neitherModelNorInit
  | checkpointPathUnset
  | checkpointRequired
  | nameInfoUnbound
  deriving DecidableEq, Repr

structure Trainer where
  config : TrainerConfig
  is_trainable_param : FilterSpec
  /-- `optimizer.init(trainable_params)`. -/
  optInit : PTree → PTree
  /-- `optimizer.update(grads, opt_state, params)` returning
  `(updates, new_opt_state)`. -/
  optUpdate : PTree → PTree → PTree → PTree × PTree
  /-- `accumulate_gradients_sharded(split_loss_fn, ...)` applied to the
  trainable half, closing over the non-trainable half, a batch and a
  PRNG subkey; returns the mean loss and the mean gradient over the
  trainable half. -/
  lossGrad : PTree → PTree → Nat → Nat → ℚ × PTree

/-- `TrainerConfig.maybe_load_checkpoint`: skip loading entirely when the
flag is `False`; otherwise assert the path was set, consult the
checkpointer, and fail when the flag is `True` but nothing was found. -/
def maybe_load_checkpoint (cfg : TrainerConfig) :
    Except TrainerErr (Option (PTree × (PTree × Nat) × Nat)) :=
  if cfg.load_checkpoint ≠ some false then
    match cfg.load_checkpoint_path with
    | none => .error .checkpointPathUnset
    | some _ =>
      match cfg.ckptLoad with
      | none =>
        if cfg.load_checkpoint = some true then .error .checkpointRequired
        else .ok none
      | some c => .ok (some c)
  else
    .ok none

/-- `Trainer._init_model_and_opt_state`: run the initializer, cast the
trainable half to param precision and the non-trainable half to compute
precision, recombine, and build optimizer state from the trainable half
only. -/
def _init_model_and_opt_state (tr : Trainer) (model_init : Unit → PTree) : PTree × PTree :=
  let model := model_init ()
  let p := partition_trainable_params tr.is_trainable_param model
  let trainable := tr.config.mp.cast_to_param p.1
  let non_trainable := tr.config.mp.cast_to_compute p.2
  (eqxCombineD trainable non_trainable, tr.optInit trainable)

/-- `Trainer._init_non_trainable_params`: run the initializer and return
only its non-trainable half, cast to compute precision. -/
def _init_non_trainable_params (tr : Trainer) (model_init : Unit → PTree) : PTree :=
  tr.config.mp.cast_to_compute
    (partition_trainable_params tr.is_trainable_param (model_init ())).2

/-- Body of `Trainer.initial_state` once the model/model_init validation
has passed: `concrete` is the user-supplied model if one was given, and
`model_init` is the initializer (for a concrete model, the partial
`lambda m: m` closure over it). -/
def initial_state_go (tr : Trainer) (training_key : Nat) (concrete : Option PTree)
    (model_init : Unit → PTree) : Except TrainerErr TrainerState :=
  match maybe_load_checkpoint tr.config with
  | .error e => .error e
  | .ok (some c) =>
    let trainable_model := c.1
    let opt_state := c.2.1.1
    let key := c.2.1.2
    let completed_step := c.2.2
    let model := match concrete with
      | some m => eqxCombineD trainable_model m
      | none => eqxCombineD trainable_model (_init_non_trainable_params tr model_init)
    .ok ⟨completed_step + 1, model, opt_state, key⟩
  | .ok none =>
    let r := _init_model_and_opt_state tr model_init
    .ok ⟨0, r.1, r.2, training_key⟩

/-- `Trainer.initial_state`: validate that exactly one of `model` and
`model_init` was supplied, then build or restore the initial state. -/
def initial_state (tr : Trainer) (training_key : Nat) (model : Option PTree)
    (model_init : Option (Unit → PTree)) : Except TrainerErr TrainerState :=
  match model, model_init with
  | some _, some _ => .error .bothModelAndInit
  | none, none => .error .neitherModelNorInit
  | some m, none => initial_state_go tr training_key (some m) (fun _ => m)
  | none, some f => initial_state_go tr training_key none f

/-- `Trainer._train_step_fn`: partition the model, run the gradient
accumulator on the trainable half (the loss recombines the halves
internally), apply the optimizer update, and recombine. -/
def train_step_fn (tr : Trainer) (model opt_state : PTree) (batch key : Nat) :
    ℚ × PTree × PTree :=
  let p := partition_trainable_params tr.is_trainable_param model
  let lg := tr.lossGrad p.1 p.2 batch key
  let upd := tr.optUpdate lg.2 opt_state p.1
  (lg.1, apply_updates model upd.1, upd.2)

/-- `Trainer.train_step`: split the training key, run the step function,
and package a `StepInfo` around a freshly constructed `TrainerState`
carrying `step + 1` (the wall-clock duration is external; we record 0). -/
def train_step (tr : Trainer) (state : TrainerState) (batch : Nat) : StepInfo :=
  let ks := splitKey state.training_key
  let r := train_step_fn tr state.model state.opt_state batch ks.1
  ⟨⟨state.step + 1, r.2.1, r.2.2, ks.2⟩, r.1, 0⟩

/-- `Trainer.training_steps`: repeatedly pull the next batch and apply
`train_step` while `state.step < num_train_steps`, yielding each
`StepInfo` (the loader is an indexed stream of batches). -/
def training_steps (tr : Trainer) (state : TrainerState) (loader : Nat → Nat)
    (i : Nat) : List StepInfo :=
  if _h : state.step < tr.config.num_train_steps then
    let info := train_step tr state (loader i)
    info :: training_steps tr info.state loader (i + 1)
  else
    []
termination_by tr.config.num_train_steps - state.step
decreasing_by
  simp only [train_step]
  omega

/-- `Trainer.train`: drain `training_steps`; afterwards the loop-local
`info` names the last yielded step, and the trailing forced hook firing
and `return info` raise `NameError` when no step was ever yielded. -/
def train (tr : Trainer) (state : TrainerState) (loader : Nat → Nat) :
    Except TrainerErr StepInfo :=
  match (training_steps tr state loader 0).getLast? with
  | some info => .ok info
  | none => .error .nameInfoUnbound

/-- Install a checkpoint-loading scenario on a trainer: auto load policy,
a set path, and `c` as the external checkpointer's answer. -/
def withCkptConfig (cfg : TrainerConfig) (b : Option Bool) (p : String)
    (c : Option (PTree × (PTree × Nat) × Nat)) : TrainerConfig :=
  { cfg with load_checkpoint := b, load_checkpoint_path := some p, ckptLoad := c }

def withCkpt (tr : Trainer) (b : Option Bool) (p : String)
    (c : Option (PTree × (PTree × Nat) × Nat)) : Trainer :=
  { tr with config := withCkptConfig tr.config b p c }

/-! ## Optimizer config and the learning-rate scheduler

The numeric config fields are rationals (python floats); the schedules
themselves are real-valued functions of the step count, mirroring the
optax schedule combinators used by `OptimizerConfig.lr_scheduler`. -/

structure OptimizerConfig where
  learning_rate : ℚ
  weight_decay : ℚ
  beta1 : ℚ
  beta2 : ℚ
  epsilon : ℚ
  max_grad_norm : Option ℚ
  min_lr_ratio : ℚ
  warmup_ratio : ℚ
  lr_schedule : String

/-- Python `int(q)`: truncation toward zero. -/
def pyInt (q : ℚ) : ℤ := if 0 ≤ q then ⌊q⌋ else -⌊-q⌋

/-- `optax.constant_schedule`. -/
noncomputable def constant_schedule (v : ℝ) : ℕ → ℝ := fun _ => v

/-- `optax.linear_schedule` (a polynomial schedule with power 1): with a
non-positive `transition_steps`, optax falls back to the constant `init`
value; otherwise clip the count to `[0, transition_steps]` and
interpolate from `init` to `endv`. -/
noncomputable def linear_schedule (init endv : ℝ) (transition_steps : ℤ) : ℕ → ℝ :=
  fun count =>
    if transition_steps ≤ 0 then init
    else
      init + (endv - init) *
        (min (max (count : ℝ) 0) ((transition_steps : ℤ) : ℝ) /
          ((transition_steps : ℤ) : ℝ))

/-- `optax.cosine_decay_schedule` with exponent 1. -/
noncomputable def cosine_decay_schedule (init_value : ℝ) (decay_steps : ℤ)
    (alpha : ℝ) : ℕ → ℝ :=
  fun count =>
    init_value *
      ((1 - alpha) *
        ((1 / 2) * (1 + Real.cos (Real.pi * min (count : ℝ) ((decay_steps : ℤ) : ℝ) /
          ((decay_steps : ℤ) : ℝ)))) + alpha)

/-- `optax.join_schedules` with two schedules and one boundary. -/
noncomputable def join_schedules2 (s1 s2 : ℕ → ℝ) (boundary : ℤ) : ℕ → ℝ :=
  fun count =>
    if (count : ℤ) < boundary then s1 count else s2 ((count : ℤ) - boundary).toNat

/-- `OptimizerConfig.lr_scheduler`: `warmup_steps = int(warmup_ratio *
num_train_steps)`; pick the decay schedule by name (`constant` at the
learning rate, `cosine` over `num_train_steps - warmup_steps` steps with
alpha `min_lr_ratio`, `linear` over `lr_decay_steps - warmup_steps` steps
down to `min_lr`); unknown names raise; when `warmup_steps != 0`, join a
linear 0→lr warmup over `warmup_steps` steps with the decay schedule. -/
noncomputable def lr_scheduler (cfg : OptimizerConfig) (num_train_steps : ℕ) :
    Except String (ℕ → ℝ) :=
  let warmup_steps : ℤ := pyInt (cfg.warmup_ratio * num_train_steps)
  let lr_decay_steps : ℤ := (num_train_steps : ℤ) - warmup_steps
  let min_lr : ℚ := cfg.learning_rate * cfg.min_lr_ratio
  let base : Except String (ℕ → ℝ) :=
    if cfg.lr_schedule = "constant" then
      .ok (constant_schedule (cfg.learning_rate : ℝ))
    else if cfg.lr_schedule = "cosine" then
      .ok (cosine_decay_schedule (cfg.learning_rate : ℝ) lr_decay_steps
        (cfg.min_lr_ratio : ℝ))
    else if cfg.lr_schedule = "linear" then
      .ok (linear_schedule (cfg.learning_rate : ℝ) (min_lr : ℝ)
        (lr_decay_steps - warmup_steps))
    else
      .error "Unknown lr_schedule"
  match base with
  | .error e => .error e
  | .ok schedule =>
    if warmup_steps ≠ 0 then
      .ok (join_schedules2
        (linear_schedule 0 (cfg.learning_rate : ℝ) warmup_steps) schedule warmup_steps)
    else
      .ok schedule

/-- The schedule exactly as claim C3 words it (for comparison with
`lr_scheduler`): a linear 0→lr ramp over `warmup_steps =
round(warmup_ratio * num_train_steps)` steps, then the configured decay
schedule over the remaining `num_train_steps - warmup_steps` steps,
decaying toward `learning_rate * min_lr_ratio`. -/
noncomputable def claim_worded_schedule (cfg : OptimizerConfig) (num_train_steps : ℕ) :
    ℕ → ℝ :=
  let warmup_steps : ℤ := round (cfg.warmup_ratio * (num_train_steps : ℚ))
  let remaining : ℤ := (num_train_steps : ℤ) - warmup_steps
  let min_lr : ℚ := cfg.learning_rate * cfg.min_lr_ratio
  let decay : ℕ → ℝ :=
    if cfg.lr_schedule = "constant" then
      constant_schedule (cfg.learning_rate : ℝ)
    else if cfg.lr_schedule = "cosine" then
      cosine_decay_schedule (cfg.learning_rate : ℝ) remaining (cfg.min_lr_ratio : ℝ)
    else
      linear_schedule (cfg.learning_rate : ℝ) (min_lr : ℝ) remaining
  fun t =>
    if (t : ℤ) < warmup_steps then
      linear_schedule 0 (cfg.learning_rate : ℝ) warmup_steps t
    else
      decay ((t : ℤ) - warmup_steps).toNat

/-- Structural congruence of two pytrees together with agreement of the
mask `q` on corresponding leaves (a checkpointed model and a
freshly-initialized model of the same architecture are congruent in this
sense). -/
inductive CongrPred (q : Leaf → Bool) : PTree → PTree → Prop where
  | leafNone : CongrPred q (.leaf none) (.leaf none)
  | leafSome (a b : Leaf) (h : q a = q b) :
      CongrPred q (.leaf (some a)) (.leaf (some b))
  | node {a b c d : PTree} : CongrPred q a c → CongrPred q b d →
      CongrPred q (.node a b) (.node c d)

/-- Every present leaf of a pytree satisfies `P`. -/
def allLeaves (P : Leaf → Prop) : PTree → Prop
  | .leaf none => True
  | .leaf (some l) => P l
  | .node a b => allLeaves P a ∧ allLeaves P b

lemma eqxCombine_filter_not_filter (p : Leaf → Bool) (t : PTree) :
    eqxCombine (eqxFilter p t) (eqxFilter (fun l => !p l) t) = some t := by
  induction t with
  | leaf o =>
    cases o with
    | none => simp [eqxFilter, eqxCombine]
    | some l =>
      by_cases h : p l = true
      · simp [eqxFilter, eqxCombine, h]
      · simp [eqxFilter, eqxCombine, h]
  | node a b iha ihb =>
    simp [eqxFilter, eqxCombine, iha, ihb]

/-- Claim C1: for every model `m` and every trainable predicate/mask `p`,
`eqx.combine` applied to the pair returned by
`partition_trainable_params` reproduces the original model exactly. -/
theorem C1_partition_combine_identity (m : PTree) (spec : FilterSpec) :
    eqxCombine (partition_trainable_params spec m).1
      (partition_trainable_params spec m).2 = some m := by
  simpa [partition_trainable_params, eqxPartition] using
    eqxCombine_filter_not_filter (trainable_and_diffable spec) m

lemma foldl_update_const (l : List String) (m : AxisMap) (v x : String) :
    (l.foldl (fun m a => updateMap m a v) m) x = if x ∈ l then some v else m x := by
  induction l generalizing m with
  | nil => simp
  | cons a as ih =>
    simp only [List.foldl_cons, ih, updateMap, List.mem_cons]
    by_cases hxa : x = a
    · simp [hxa]
    · by_cases hxs : x ∈ as <;> simp [hxa, hxs]

lemma lastVal_foldl_seed (ps : List (String × String)) (x : String) (seed : Option String) :
    ps.foldl (fun acc kv => if kv.1 = x then some kv.2 else acc) seed =
      match lastVal ps x with
      | some v => some v
      | none => seed := by
  induction ps generalizing seed with
  | nil => simp [lastVal]
  | cons kv ps ih =>
    have hc : lastVal (kv :: ps) x =
        ps.foldl (fun acc kv2 => if kv2.1 = x then some kv2.2 else acc)
          (if kv.1 = x then some kv.2 else none) := by
      simp [lastVal]
    simp only [List.foldl_cons, ih]
    rw [hc, ih]
    rcases h : lastVal ps x with _ | v <;> by_cases hk : kv.1 = x <;> simp [hk]

lemma foldl_update_pairs (ps : List (String × String)) (m : AxisMap) (x : String) :
    (ps.foldl (fun m kv => updateMap m kv.1 kv.2) m) x =
      match lastVal ps x with
      | some v => some v
      | none => m x := by
  induction ps generalizing m with
  | nil => simp [lastVal]
  | cons kv ps ih =>
    have hc : lastVal (kv :: ps) x =
        ps.foldl (fun acc kv2 => if kv2.1 = x then some kv2.2 else acc)
          (if kv.1 = x then some kv.2 else none) := by
      simp [lastVal]
    simp only [List.foldl_cons, ih]
    rw [hc, lastVal_foldl_seed]
    rcases h : lastVal ps x with _ | v <;> by_cases hk : kv.1 = x
    · simp [hk, updateMap]
    · have hxk : ¬x = kv.1 := fun he => hk he.symm
      simp [updateMap, hk, hxk]
    · simp
    · simp

lemma run_hooks_eq_filter (hooks : List Hook) (info : StepInfo) (force : Bool) :
    run_hooks hooks info force =
      hooks.filter (fun g => force || (StepInfo.step info % g.every == 0)) := by
  induction hooks with
  | nil => rfl
  | cons h rest ih =>
    by_cases hc : (force || (StepInfo.step info % h.every == 0)) = true
    · simp [run_hooks, List.filter, hc, ih]
    · simp [run_hooks, List.filter, hc, ih]

/-- Claim C5: `run_hooks` fires exactly the hooks whose period divides the
completed step `result.state.step - 1` (or all of them when `force` is
set), in registration order; whether a hook fires does not depend on the
other hooks, since the fired list is a pointwise filter of the registry. -/
theorem C5_hook_periodicity (hooks : List Hook) (info : StepInfo) (force : Bool)
    (h : Hook) (hne : h.every ≠ 0) :
    run_hooks hooks info force =
      hooks.filter (fun g => force || (StepInfo.step info % g.every == 0)) ∧
    (h ∈ run_hooks hooks info force ↔
      h ∈ hooks ∧ (force = true ∨ h.every ∣ StepInfo.step info)) := by
  refine ⟨run_hooks_eq_filter hooks info force, ?_⟩
  rw [run_hooks_eq_filter]
  rw [List.mem_filter]
  constructor
  · rintro ⟨hmem, hcond⟩
    refine ⟨hmem, ?_⟩
    cases force with
    | true => exact Or.inl rfl
    | false =>
      have hd : StepInfo.step info % h.every = 0 := by simpa using hcond
      exact Or.inr (Int.dvd_of_emod_eq_zero hd)
  · rintro ⟨hmem, hf | hd⟩
    · exact ⟨hmem, by simp [hf]⟩
    · exact ⟨hmem, by simp [Int.emod_eq_zero_of_dvd hd]⟩

/-- Witness for C5 at a concrete registry and step: two hooks with
periods 2 and 3 observing completed step 4 without forcing. -/
theorem C5_hook_periodicity_witness :
    (2 : ℤ) ≠ 0 ∧
    (run_hooks [⟨0, 2⟩, ⟨1, 3⟩] ⟨⟨5, .leaf none, .leaf none, 0⟩, 0, 0⟩ false =
        ([⟨0, 2⟩, ⟨1, 3⟩] : List Hook).filter
          (fun g => false ||
            (StepInfo.step ⟨⟨5, .leaf none, .leaf none, 0⟩, 0, 0⟩ % g.every == 0)) ∧
      ((⟨0, 2⟩ : Hook) ∈
          run_hooks [⟨0, 2⟩, ⟨1, 3⟩] ⟨⟨5, .leaf none, .leaf none, 0⟩, 0, 0⟩ false ↔
        (⟨0, 2⟩ : Hook) ∈ ([⟨0, 2⟩, ⟨1, 3⟩] : List Hook) ∧
          (false = true ∨
            (2 : ℤ) ∣ StepInfo.step ⟨⟨5, .leaf none, .leaf none, 0⟩, 0, 0⟩))) :=
  ⟨by decide,
   C5_hook_periodicity [⟨0, 2⟩, ⟨1, 3⟩] ⟨⟨5, .leaf none, .leaf none, 0⟩, 0, 0⟩ false
     ⟨0, 2⟩ (by decide)⟩

/-- Claim C4: axis-mapping override precedence.  With `b` the batch axis,
`x` a tensor-parallel axis other than the batch axis and `y` an FSDP
axis: the compute mapping sends `x` to the model mesh axis and `b` to the
data mesh axis; the parameter mapping sends `y` to the data mesh axis;
axes touched by no override keep their `axis_resources` entry in the
compute mapping; and non-FSDP axes resolve to their last
`parameter_axis_resources` entry, falling back to the compute mapping. -/
theorem C4_axis_override_precedence (cfg : TrainerConfig) (x b y : String)
    (hx : x ∈ cfg.tensor_parallel_axes.getD [])
    (hbx : cfg.batch_axis ≠ some x)
    (hb : cfg.batch_axis = some b)
    (hy : cfg.fsdp_axis.contains y) :
    compute_axis_mapping cfg x = some ResourceAxisMODEL ∧
    compute_axis_mapping cfg b = some ResourceAxisDATA ∧
    parameter_axis_mapping cfg y = some ResourceAxisDATA ∧
    (∀ z, z ∉ cfg.tensor_parallel_axes.getD [] → cfg.batch_axis ≠ some z →
      compute_axis_mapping cfg z = lastVal cfg.axis_resources z) ∧
    (∀ z, ¬cfg.fsdp_axis.contains z →
      parameter_axis_mapping cfg z =
        match lastVal cfg.parameter_axis_resources z with
        | some v => some v
        | none => compute_axis_mapping cfg z) := by
  have hxb : x ≠ b := by
    intro he
    exact hbx (by rw [he, hb])
  have hcompute_base : ∀ z,
      ((cfg.tensor_parallel_axes.getD []).foldl
          (fun m a => updateMap m a ResourceAxisMODEL) (dictOf cfg.axis_resources)) z =
        if z ∈ cfg.tensor_parallel_axes.getD [] then some ResourceAxisMODEL
        else dictOf cfg.axis_resources z :=
    fun z => foldl_update_const _ _ _ z
  refine ⟨?_, ?_, ?_, ?_, ?_⟩
  · simp only [compute_axis_mapping, hb]
    rw [show (updateMap ((cfg.tensor_parallel_axes.getD []).foldl
        (fun m a => updateMap m a ResourceAxisMODEL) (dictOf cfg.axis_resources))
        b ResourceAxisDATA) x = _ from rfl]
    simp only [updateMap, if_neg hxb]
    rw [hcompute_base x, if_pos hx]
  · simp [compute_axis_mapping, hb, updateMap]
  · simp only [parameter_axis_mapping]
    cases hfs : cfg.fsdp_axis with
    | noAxis => exact absurd hy (by simp [hfs, FsdpSpec.contains])
    | single s =>
      have hys : y = s := by simpa [hfs, FsdpSpec.contains] using hy
      simp [hys, updateMap]
    | multi l =>
      have hyl : y ∈ l := by simpa [hfs, FsdpSpec.contains] using hy
      dsimp only
      rw [foldl_update_const, if_pos hyl]
  · intro z hz hzb
    simp only [compute_axis_mapping]
    cases hba : cfg.batch_axis with
    | none =>
      dsimp only
      rw [hcompute_base z, if_neg hz]
      rw [show dictOf cfg.axis_resources z = _ from foldl_update_pairs _ _ z]
      cases hlv : lastVal cfg.axis_resources z <;> simp
    | some bb =>
      have hzbb : z ≠ bb := by
        intro he
        exact hzb (by rw [he, hba])
      dsimp only
      simp only [updateMap, if_neg hzbb]
      rw [hcompute_base z, if_neg hz]
      rw [show dictOf cfg.axis_resources z = _ from foldl_update_pairs _ _ z]
      cases hlv : lastVal cfg.axis_resources z <;> simp
  · intro z hz
    simp only [parameter_axis_mapping]
    have hinner :
        (cfg.parameter_axis_resources.foldl (fun m kv => updateMap m kv.1 kv.2)
            (compute_axis_mapping cfg)) z =
          match lastVal cfg.parameter_axis_resources z with
          | some v => some v
          | none => compute_axis_mapping cfg z :=
      foldl_update_pairs _ _ z
    cases hfs : cfg.fsdp_axis with
    | noAxis => exact hinner
    | single s =>
      have hzs : z ≠ s := by simpa [hfs, FsdpSpec.contains] using hz
      dsimp only
      simpa [updateMap, hzs] using hinner
    | multi l =>
      have hzl : z ∉ l := by simpa [hfs, FsdpSpec.contains] using hz
      dsimp only
      rw [foldl_update_const, if_neg hzl]
      exact hinner

/-- Witness for C4 at the spec's concrete instance:
`axis_resources={"x":"A"}`, `tensor_parallel_axes=["x"]`,
`batch_axis="b"`, `fsdp_axis=["x"]`. -/
theorem C4_axis_override_precedence_witness :
    "x" ∈ (TrainerConfig.mk ⟨.f32, .f32, .f32⟩ (some "b") (.multi ["x"]) (some ["x"])
        [("x", "A")] [] 0 none none none).tensor_parallel_axes.getD [] ∧
    (compute_axis_mapping
        (TrainerConfig.mk ⟨.f32, .f32, .f32⟩ (some "b") (.multi ["x"]) (some ["x"])
          [("x", "A")] [] 0 none none none) "x" = some ResourceAxisMODEL ∧
      compute_axis_mapping
        (TrainerConfig.mk ⟨.f32, .f32, .f32⟩ (some "b") (.multi ["x"]) (some ["x"])
          [("x", "A")] [] 0 none none none) "b" = some ResourceAxisDATA ∧
      parameter_axis_mapping
        (TrainerConfig.mk ⟨.f32, .f32, .f32⟩ (some "b") (.multi ["x"]) (some ["x"])
          [("x", "A")] [] 0 none none none) "x" = some ResourceAxisDATA ∧
      (∀ z, z ∉ (TrainerConfig.mk ⟨.f32, .f32, .f32⟩ (some "b") (.multi ["x"]) (some ["x"])
            [("x", "A")] [] 0 none none none).tensor_parallel_axes.getD [] →
        (TrainerConfig.mk ⟨.f32, .f32, .f32⟩ (some "b") (.multi ["x"]) (some ["x"])
            [("x", "A")] [] 0 none none none).batch_axis ≠ some z →
        compute_axis_mapping
            (TrainerConfig.mk ⟨.f32, .f32, .f32⟩ (some "b") (.multi ["x"]) (some ["x"])
              [("x", "A")] [] 0 none none none) z =
          lastVal [("x", "A")] z) ∧
      (∀ z, ¬(FsdpSpec.multi ["x"]).contains z →
        parameter_axis_mapping
            (TrainerConfig.mk ⟨.f32, .f32, .f32⟩ (some "b") (.multi ["x"]) (some ["x"])
              [("x", "A")] [] 0 none none none) z =
          match lastVal [] z with
          | some v => some v
          | none => compute_axis_mapping
              (TrainerConfig.mk ⟨.f32, .f32, .f32⟩ (some "b") (.multi ["x"]) (some ["x"])
                [("x", "A")] [] 0 none none none) z)) :=
  ⟨by decide,
   C4_axis_override_precedence
     (TrainerConfig.mk ⟨.f32, .f32, .f32⟩ (some "b") (.multi ["x"]) (some ["x"])
       [("x", "A")] [] 0 none none none) "x" "b" "x"
     (by decide) (by decide) rfl (by simp [FsdpSpec.contains])⟩

/-- Claim C2: a successful `train_step` returns a `StepInfo` whose state
is a freshly constructed `TrainerState` with `step = s.step + 1` and the
carried half of the split key.  The embedding is purely functional, so the
input state is a value: nothing can mutate `s.step`, `s.model`,
`s.opt_state` or `s.training_key` in place, and the returned record is a
new one. -/
theorem C2_train_step_increments_step (tr : Trainer) (s : TrainerState) (batch : Nat) :
    (train_step tr s batch).state.step = s.step + 1 ∧
    (train_step tr s batch).state.training_key = (splitKey s.training_key).2 :=
  ⟨rfl, rfl⟩

/-- Claim C10: once `state.step` has reached `num_train_steps`,
`training_steps` yields nothing, and `train` raises (the loop-local
`info` is never bound) instead of returning a final step result. -/
theorem C10_terminal_state_yields_nothing (tr : Trainer) (s : TrainerState)
    (loader : Nat → Nat) (h : tr.config.num_train_steps ≤ s.step) :
    training_steps tr s loader 0 = [] ∧
    train tr s loader = .error .nameInfoUnbound := by
  have he : training_steps tr s loader 0 = [] := by
    rw [training_steps]
    simp [Nat.not_lt.mpr h]
  exact ⟨he, by simp [train, he]⟩

/-- Witness for C10: a trainer configured for 0 steps and a state at
step 0. -/
theorem C10_terminal_state_yields_nothing_witness :
    (Trainer.mk (TrainerConfig.mk ⟨.f32, .f32, .f32⟩ none .noAxis none [] [] 0
        none none none) (.const true) (fun t => t) (fun g o _ => (g, o))
        (fun a _ _ _ => (0, a))).config.num_train_steps ≤
      (TrainerState.mk 0 (.leaf none) (.leaf none) 0).step ∧
    (training_steps (Trainer.mk (TrainerConfig.mk ⟨.f32, .f32, .f32⟩ none .noAxis none [] [] 0
        none none none) (.const true) (fun t => t) (fun g o _ => (g, o))
        (fun a _ _ _ => (0, a))) (TrainerState.mk 0 (.leaf none) (.leaf none) 0)
        (fun _ => 0) 0 = [] ∧
      train (Trainer.mk (TrainerConfig.mk ⟨.f32, .f32, .f32⟩ none .noAxis none [] [] 0
        none none none) (.const true) (fun t => t) (fun g o _ => (g, o))
        (fun a _ _ _ => (0, a))) (TrainerState.mk 0 (.leaf none) (.leaf none) 0)
        (fun _ => 0) = .error .nameInfoUnbound) :=
  ⟨Nat.le_refl 0,
   C10_terminal_state_yields_nothing _ _ _ (Nat.le_refl 0)⟩

lemma maybe_load_checkpoint_error (cfg : TrainerConfig) (e : TrainerErr)
    (h : maybe_load_checkpoint cfg = .error e) :
    e = .checkpointPathUnset ∨ e = .checkpointRequired := by
  unfold maybe_load_checkpoint at h
  by_cases hlc : cfg.load_checkpoint ≠ some false
  · rw [if_pos hlc] at h
    cases hp : cfg.load_checkpoint_path with
    | none =>
      rw [hp] at h
      exact Or.inl (by cases h; rfl)
    | some q =>
      rw [hp] at h
      cases hc : cfg.ckptLoad with
      | none =>
        rw [hc] at h
        by_cases hreq : cfg.load_checkpoint = some true
        · rw [if_pos hreq] at h
          exact Or.inr (by cases h; rfl)
        · rw [if_neg hreq] at h
          cases h
      | some c =>
        rw [hc] at h
        cases h
  · rw [if_neg hlc] at h
    cases h

lemma initial_state_go_error (tr : Trainer) (key : Nat) (concrete : Option PTree)
    (f : Unit → PTree) (e : TrainerErr)
    (h : initial_state_go tr key concrete f = .error e) :
    e = .checkpointPathUnset ∨ e = .checkpointRequired := by
  unfold initial_state_go at h
  cases hml : maybe_load_checkpoint tr.config with
  | error e2 =>
    rw [hml] at h
    cases h
    exact maybe_load_checkpoint_error tr.config e hml
  | ok o =>
    rw [hml] at h
    cases o <;> cases h

/-- Claim C8: `initial_state` rejects `model`/`model_init` arguments
exactly when both or neither are supplied; with exactly one supplied it
never raises on that account (any remaining error is a checkpoint
error). -/
theorem C8_exactly_one_model_source (tr : Trainer) (key : Nat) (m : PTree)
    (f : Unit → PTree) :
    initial_state tr key (some m) (some f) = .error .bothModelAndInit ∧
    initial_state tr key none none = .error .neitherModelNorInit ∧
    (∀ e, initial_state tr key (some m) none = .error e →
      e ≠ .bothModelAndInit ∧ e ≠ .neitherModelNorInit) ∧
    (∀ e, initial_state tr key none (some f) = .error e →
      e ≠ .bothModelAndInit ∧ e ≠ .neitherModelNorInit) := by
  refine ⟨rfl, rfl, ?_, ?_⟩
  · intro e he
    rcases initial_state_go_error tr key (some m) (fun _ => m) e he with h | h <;>
      subst h <;> exact ⟨by decide, by decide⟩
  · intro e he
    rcases initial_state_go_error tr key none f e he with h | h <;>
      subst h <;> exact ⟨by decide, by decide⟩

/-- Witness for C8: a trainer whose required checkpoint is missing still
errors, but with a checkpoint error rather than a model-argument error. -/
theorem C8_exactly_one_model_source_witness :
    initial_state (Trainer.mk (TrainerConfig.mk ⟨.f32, .f32, .f32⟩ none .noAxis none [] [] 1
        (some true) (some "p") none) (.const true) (fun t => t) (fun g o _ => (g, o))
        (fun a _ _ _ => (0, a))) 0 (some (.leaf none)) none =
      .error .checkpointRequired ∧
    (TrainerErr.checkpointRequired ≠ .bothModelAndInit ∧
      TrainerErr.checkpointRequired ≠ .neitherModelNorInit) :=
  ⟨rfl,
   (C8_exactly_one_model_source (Trainer.mk (TrainerConfig.mk ⟨.f32, .f32, .f32⟩ none .noAxis
       none [] [] 1 (some true) (some "p") none) (.const true) (fun t => t)
       (fun g o _ => (g, o)) (fun a _ _ _ => (0, a))) 0 (.leaf none)
     (fun _ => .leaf none)).2.2.1 .checkpointRequired rfl⟩

/-- Claim C7: load-flag semantics of `maybe_load_checkpoint`.  With
`load_checkpoint = True` and no checkpoint available at the configured
path, construction fails; with `False`, nothing is ever loaded (even when
a checkpoint exists) and `initial_state` always takes the fresh-init
branch; with `None` (default), a missing checkpoint silently falls back
to fresh initialization. -/
theorem C7_load_checkpoint_flag_semantics (tr : Trainer) (f : Unit → PTree) (key : Nat)
    (p : String) (c : PTree × (PTree × Nat) × Nat) :
    maybe_load_checkpoint (withCkptConfig tr.config (some true) p none) =
      .error .checkpointRequired ∧
    initial_state (withCkpt tr (some true) p none) key none (some f) =
      .error .checkpointRequired ∧
    maybe_load_checkpoint (withCkptConfig tr.config (some false) p (some c)) = .ok none ∧
    initial_state (withCkpt tr (some false) p (some c)) key none (some f) =
      .ok ⟨0, (_init_model_and_opt_state (withCkpt tr (some false) p (some c)) f).1,
        (_init_model_and_opt_state (withCkpt tr (some false) p (some c)) f).2, key⟩ ∧
    maybe_load_checkpoint (withCkptConfig tr.config none p none) = .ok none ∧
    initial_state (withCkpt tr none p none) key none (some f) =
      .ok ⟨0, (_init_model_and_opt_state (withCkpt tr none p none) f).1,
        (_init_model_and_opt_state (withCkpt tr none p none) f).2, key⟩ :=
  ⟨rfl, rfl, rfl, rfl, rfl, rfl⟩

lemma bool_eq_false_of_ne_true {b : Bool} (h : ¬b = true) : b = false := by
  cases b
  · rfl
  · exact absurd rfl h

/-- Stability of `is_inexact_arrayish` under casting to a floating dtype:
casting cannot change whether a leaf is a float array. -/
lemma is_inexact_cast_stable (d : Dt) (hd : d.isFloat = true) (l : Leaf) :
    is_inexact_arrayish (castLeafTo d l) = is_inexact_arrayish l := by
  unfold castLeafTo is_inexact_arrayish
  by_cases h : l.dt.isFloat <;> simp [h, hd]

lemma resume_merge (q : Leaf → Bool) (cp : Dt)
    (hq : ∀ l, q (castLeafTo cp l) = q l) {mC mI : PTree}
    (hcong : CongrPred q mC mI) :
    ∃ merged, eqxCombine (eqxFilter q mC)
        (PTree.mapLeaves (castLeafTo cp) (eqxFilter (fun l => !q l) mI)) = some merged ∧
      eqxFilter q merged = eqxFilter q mC := by
  induction hcong with
  | leafNone => exact ⟨.leaf none, rfl, rfl⟩
  | leafSome a b h =>
    by_cases hqa : q a = true
    · have hqb : q b = true := h ▸ hqa
      refine ⟨.leaf (some a), ?_, ?_⟩
      · simp [eqxFilter, hqa, hqb, eqxCombine, PTree.mapLeaves]
      · simp [eqxFilter, hqa]
    · have hqa2 : q a = false := bool_eq_false_of_ne_true hqa
      have hqb : q b = false := h ▸ hqa2
      refine ⟨.leaf (some (castLeafTo cp b)), ?_, ?_⟩
      · simp [eqxFilter, hqa2, hqb, eqxCombine, PTree.mapLeaves]
      · simp [eqxFilter, hq b, hqa2, hqb]
  | node h1 h2 ih1 ih2 =>
    obtain ⟨m1, hc1, hf1⟩ := ih1
    obtain ⟨m2, hc2, hf2⟩ := ih2
    exact ⟨.node m1 m2,
      by simp [eqxFilter, PTree.mapLeaves, eqxCombine, hc1, hc2],
      by simp [eqxFilter, hf1, hf2]⟩

lemma resume_trainable_restored (q : Leaf → Bool) (cp : Dt)
    (hq : ∀ l, q (castLeafTo cp l) = q l) {mC mI : PTree}
    (hcong : CongrPred q mC mI) :
    eqxFilter q (eqxCombineD (eqxFilter q mC)
      (PTree.mapLeaves (castLeafTo cp) (eqxFilter (fun l => !q l) mI))) =
      eqxFilter q mC := by
  obtain ⟨merged, hc, hf⟩ := resume_merge q cp hq hcong
  rw [eqxCombineD, hc]
  exact hf

/-- Claim C6: resume step numbering.  When the checkpointer finds a
checkpoint of completed step `n`, `initial_state` returns step `n + 1`
with the trainable leaves taken from the checkpoint (under structural
congruence of the checkpointed model with the initializer's output and
stability of the mask under the compute cast); when nothing is found it
returns step `0` with optimizer state built from the param-cast trainable
leaves only. -/
theorem C6_resume_step_numbering (tr : Trainer) (f : Unit → PTree) (key : Nat)
    (p : String) (tm os mC : PTree) (k n : Nat)
    (htm : tm = eqxFilter (trainable_and_diffable tr.is_trainable_param) mC)
    (hcong : CongrPred (trainable_and_diffable tr.is_trainable_param) mC (f ()))
    (hq : ∀ l, trainable_and_diffable tr.is_trainable_param
        (castLeafTo tr.config.mp.compute l) =
      trainable_and_diffable tr.is_trainable_param l) :
    initial_state (withCkpt tr none p (some (tm, (os, k), n))) key none (some f) =
      .ok ⟨n + 1,
        eqxCombineD tm
          (_init_non_trainable_params (withCkpt tr none p (some (tm, (os, k), n))) f),
        os, k⟩ ∧
    (partition_trainable_params tr.is_trainable_param
        (eqxCombineD tm
          (_init_non_trainable_params (withCkpt tr none p (some (tm, (os, k), n))) f))).1 =
      tm ∧
    initial_state (withCkpt tr none p none) key none (some f) =
      .ok ⟨0, (_init_model_and_opt_state (withCkpt tr none p none) f).1,
        (_init_model_and_opt_state (withCkpt tr none p none) f).2, key⟩ ∧
    (_init_model_and_opt_state (withCkpt tr none p none) f).2 =
      tr.optInit (tr.config.mp.cast_to_param
        (partition_trainable_params tr.is_trainable_param (f ())).1) := by
  refine ⟨rfl, ?_, rfl, rfl⟩
  subst htm
  exact resume_trainable_restored _ _ hq hcong

/-- Witness for C6: a one-leaf float model; the checkpointed value 5
replaces the freshly-initialized value 7 and step resumes at 4 + 1. -/
theorem C6_resume_step_numbering_witness :
    ((.leaf (some ⟨5, .f32⟩) : PTree) =
      eqxFilter (trainable_and_diffable (.const true)) (.leaf (some ⟨5, .f32⟩))) ∧
    (initial_state (withCkpt (Trainer.mk (TrainerConfig.mk ⟨.f32, .bf16, .f32⟩ none .noAxis
          none [] [] 10 none none none) (.const true) (fun t => t) (fun g o _ => (g, o))
          (fun a _ _ _ => (0, a))) none "p"
          (some (.leaf (some ⟨5, .f32⟩), (.leaf none, 3), 4))) 0 none
        (some (fun _ => .leaf (some ⟨7, .f32⟩))) =
      .ok ⟨5,
        eqxCombineD (.leaf (some ⟨5, .f32⟩))
          (_init_non_trainable_params (withCkpt (Trainer.mk (TrainerConfig.mk
            ⟨.f32, .bf16, .f32⟩ none .noAxis none [] [] 10 none none none) (.const true)
            (fun t => t) (fun g o _ => (g, o)) (fun a _ _ _ => (0, a))) none "p"
            (some (.leaf (some ⟨5, .f32⟩), (.leaf none, 3), 4)))
            (fun _ => .leaf (some ⟨7, .f32⟩))),
        .leaf none, 3⟩) ∧
    (partition_trainable_params (.const true)
        (eqxCombineD (.leaf (some ⟨5, .f32⟩))
          (_init_non_trainable_params (withCkpt (Trainer.mk (TrainerConfig.mk
            ⟨.f32, .bf16, .f32⟩ none .noAxis none [] [] 10 none none none) (.const true)
            (fun t => t) (fun g o _ => (g, o)) (fun a _ _ _ => (0, a))) none "p"
            (some (.leaf (some ⟨5, .f32⟩), (.leaf none, 3), 4)))
            (fun _ => .leaf (some ⟨7, .f32⟩))))).1 =
      .leaf (some ⟨5, .f32⟩) := by
  have hmain := C6_resume_step_numbering (Trainer.mk (TrainerConfig.mk ⟨.f32, .bf16, .f32⟩
      none .noAxis none [] [] 10 none none none) (.const true) (fun t => t)
      (fun g o _ => (g, o)) (fun a _ _ _ => (0, a))) (fun _ => .leaf (some ⟨7, .f32⟩)) 0 "p"
      (.leaf (some ⟨5, .f32⟩)) (.leaf none) (.leaf (some ⟨5, .f32⟩)) 3 4
      (by decide) (CongrPred.leafSome ⟨5, .f32⟩ ⟨7, .f32⟩ (by decide))
      (fun l => is_inexact_cast_stable .bf16 rfl l)
  exact ⟨by decide, hmain.1, hmain.2.1⟩

/-- Counterexample to claim C9: on the resume-with-concrete-model branch
(`model = eqx.combine(trainable_model, model)` in `initial_state`), no
cast is applied.  Here every leaf is non-trainable (the mask is the
constant-`False` predicate), the policy is param `f32` / compute `bf16`,
and the supplied model's float leaf survives at dtype `f32` — the param
dtype, not the compute dtype — so non-trainable leaves are NOT cast to
compute precision on every model-creating path. -/
theorem C9_counterexample :
    initial_state (withCkpt (Trainer.mk (TrainerConfig.mk ⟨.f32, .bf16, .f32⟩ none .noAxis
        none [] [] 10 none none none) (.pred (fun _ => false)) (fun t => t)
        (fun g o _ => (g, o)) (fun a _ _ _ => (0, a))) none "p"
        (some (.leaf none, (.leaf none, 9), 5))) 0
        (some (.leaf (some ⟨0, .f32⟩))) none =
      .ok ⟨6, .leaf (some ⟨0, .f32⟩), .leaf none, 9⟩ ∧
    eqxFilter (trainable_and_diffable (.pred (fun _ => false))) (.leaf (some ⟨0, .f32⟩)) =
      .leaf none ∧
    Dt.f32 = (Policy.mk .f32 .bf16 .f32).param ∧
    Dt.f32 ≠ (Policy.mk .f32 .bf16 .f32).compute :=
  ⟨rfl, rfl, rfl, by decide⟩

lemma allLeaves_mapLeaves_cast (d : Dt) (t : PTree) :
    allLeaves (fun l => l.dt.isFloat = true → l.dt = d) (t.mapLeaves (castLeafTo d)) := by
  induction t with
  | leaf o =>
    cases o with
    | none => trivial
    | some l =>
      by_cases h : l.dt.isFloat = true <;>
        simp [PTree.mapLeaves, allLeaves, castLeafTo, h]
  | node a b iha ihb => exact ⟨iha, ihb⟩

/-- Claim C9 as amended: on the fresh-initialization path, trainable
leaves are cast to param precision and non-trainable leaves to compute
precision; on the resume-without-model path the re-initialized
non-trainable leaves are cast to compute precision; but on the
resume-with-concrete-model path the supplied model's leaves are combined
in unchanged, with no cast at all. -/
theorem C9_amended_precision_casts (tr : Trainer) (f : Unit → PTree) (key : Nat)
    (p : String) (tm os m : PTree) (k n : Nat) :
    (_init_model_and_opt_state tr f).1 =
      eqxCombineD
        (tr.config.mp.cast_to_param
          (partition_trainable_params tr.is_trainable_param (f ())).1)
        (tr.config.mp.cast_to_compute
          (partition_trainable_params tr.is_trainable_param (f ())).2) ∧
    allLeaves (fun l => l.dt.isFloat = true → l.dt = tr.config.mp.param)
      (tr.config.mp.cast_to_param
        (partition_trainable_params tr.is_trainable_param (f ())).1) ∧
    allLeaves (fun l => l.dt.isFloat = true → l.dt = tr.config.mp.compute)
      (tr.config.mp.cast_to_compute
        (partition_trainable_params tr.is_trainable_param (f ())).2) ∧
    allLeaves (fun l => l.dt.isFloat = true → l.dt = tr.config.mp.compute)
      (_init_non_trainable_params tr f) ∧
    initial_state (withCkpt tr none p (some (tm, (os, k), n))) key (some m) none =
      .ok ⟨n + 1, eqxCombineD tm m, os, k⟩ :=
  ⟨rfl, allLeaves_mapLeaves_cast _ _, allLeaves_mapLeaves_cast _ _,
   allLeaves_mapLeaves_cast _ _, rfl⟩

/-- Counterexample to claim C3, in two parts.  (1) The source computes
`warmup_steps = int(warmup_ratio * num_train_steps)` (truncation), not
`round`: with `warmup_ratio = 1/2`, `num_train_steps = 3` and the
constant schedule, the code's warmup lasts `int(1.5) = 1` step, so the
built schedule is already at the full learning rate 1 at step 1, while
the claim's `round(1.5) = 2`-step ramp prescribes value 1/2 there.
(2) The linear decay does not run over `num_train_steps - warmup_steps`
steps: with `warmup_ratio = 1/4`, `num_train_steps = 8` (so
`int(2.0) = round(2.0) = 2` and rounding is not in play) and
`min_lr_ratio = 0`, the code passes `lr_decay_steps - warmup_steps =
(8 - 2) - 2 = 4` transition steps, reaching 0 at step 6, while the
claim's `8 - 2 = 6`-step decay prescribes 1/3 there. -/
theorem C3_counterexample :
    (lr_scheduler (OptimizerConfig.mk 1 0 (9/10) (999/1000) 0 (some 1) 0 (1/2) "constant")
        3).toOption.map (fun f => f 1) = some 1 ∧
    claim_worded_schedule
      (OptimizerConfig.mk 1 0 (9/10) (999/1000) 0 (some 1) 0 (1/2) "constant") 3 1 =
      1 / 2 ∧
    (1 : ℝ) ≠ 1 / 2 ∧
    (lr_scheduler (OptimizerConfig.mk 1 0 (9/10) (999/1000) 0 (some 1) 0 (1/4) "linear")
        8).toOption.map (fun f => f 6) = some 0 ∧
    claim_worded_schedule
      (OptimizerConfig.mk 1 0 (9/10) (999/1000) 0 (some 1) 0 (1/4) "linear") 8 6 =
      1 / 3 ∧
    (0 : ℝ) ≠ 1 / 3 := by
  refine ⟨?_, ?_, by norm_num, ?_, ?_, by norm_num⟩
  · have hws : pyInt ((1 : ℚ) / 2 * ((3 : ℕ) : ℚ)) = 1 := by
      rw [pyInt, if_pos (by norm_num)]
      norm_num
    simp only [lr_scheduler, hws]
    norm_num [join_schedules2, constant_schedule, Except.toOption]
  · have hrd : round ((1 : ℚ) / 2 * ((3 : ℕ) : ℚ)) = 2 := by
      rw [round_eq]
      norm_num
    simp only [claim_worded_schedule, hrd]
    norm_num [linear_schedule]
  · have hws : pyInt ((1 : ℚ) / 4 * ((8 : ℕ) : ℚ)) = 2 := by
      rw [pyInt, if_pos (by norm_num)]
      norm_num
    simp only [lr_scheduler, hws]
    rw [if_neg (by decide : ¬("linear" = "constant"))]
    rw [if_neg (by decide : ¬("linear" = "cosine"))]
    norm_num [join_schedules2, linear_schedule, Except.toOption,
      show Int.toNat 4 = 4 from rfl]
  · have hrd : round ((1 : ℚ) / 4 * ((8 : ℕ) : ℚ)) = 2 := by
      rw [round_eq]
      norm_num
    simp only [claim_worded_schedule, hrd]
    rw [if_neg (by decide : ¬("linear" = "constant"))]
    rw [if_neg (by decide : ¬("linear" = "cosine"))]
    norm_num [linear_schedule, show Int.toNat 4 = 4 from rfl]

lemma lr_scheduler_kind_valid (cfg : OptimizerConfig) (nts : ℕ) (f : ℕ → ℝ)
    (hf : lr_scheduler cfg nts = .ok f) :
    cfg.lr_schedule = "constant" ∨ cfg.lr_schedule = "cosine" ∨
      cfg.lr_schedule = "linear" := by
  by_contra hc
  push_neg at hc
  obtain ⟨h1, h2, h3⟩ := hc
  simp [lr_scheduler, h1, h2, h3] at hf

lemma lr_scheduler_shape_constant (cfg : OptimizerConfig) (nts : ℕ) (f : ℕ → ℝ)
    (hk : cfg.lr_schedule = "constant")
    (hwsne : pyInt (cfg.warmup_ratio * (nts : ℚ)) ≠ 0)
    (hf : lr_scheduler cfg nts = .ok f) :
    f = join_schedules2
      (linear_schedule 0 (cfg.learning_rate : ℝ) (pyInt (cfg.warmup_ratio * (nts : ℚ))))
      (constant_schedule (cfg.learning_rate : ℝ))
      (pyInt (cfg.warmup_ratio * (nts : ℚ))) := by
  norm_num [lr_scheduler, hk] at hf
  split at hf
  · next h => exact absurd h hwsne
  · injection hf with h
    exact h.symm

lemma lr_scheduler_shape_cosine (cfg : OptimizerConfig) (nts : ℕ) (f : ℕ → ℝ)
    (hk : cfg.lr_schedule = "cosine")
    (hwsne : pyInt (cfg.warmup_ratio * (nts : ℚ)) ≠ 0)
    (hf : lr_scheduler cfg nts = .ok f) :
    f = join_schedules2
      (linear_schedule 0 (cfg.learning_rate : ℝ) (pyInt (cfg.warmup_ratio * (nts : ℚ))))
      (cosine_decay_schedule (cfg.learning_rate : ℝ)
        ((nts : ℤ) - pyInt (cfg.warmup_ratio * (nts : ℚ))) (cfg.min_lr_ratio : ℝ))
      (pyInt (cfg.warmup_ratio * (nts : ℚ))) := by
  norm_num [lr_scheduler, hk] at hf
  rw [if_neg (by decide : ¬("cosine" = "constant"))] at hf
  norm_num at hf
  split at hf
  · next h => exact absurd h hwsne
  · injection hf with h
    exact h.symm

lemma lr_scheduler_shape_linear (cfg : OptimizerConfig) (nts : ℕ) (f : ℕ → ℝ)
    (hk : cfg.lr_schedule = "linear")
    (hwsne : pyInt (cfg.warmup_ratio * (nts : ℚ)) ≠ 0)
    (hf : lr_scheduler cfg nts = .ok f) :
    f = join_schedules2
      (linear_schedule 0 (cfg.learning_rate : ℝ) (pyInt (cfg.warmup_ratio * (nts : ℚ))))
      (linear_schedule (cfg.learning_rate : ℝ)
        ((cfg.learning_rate : ℝ) * (cfg.min_lr_ratio : ℝ))
        ((nts : ℤ) - pyInt (cfg.warmup_ratio * (nts : ℚ)) -
          pyInt (cfg.warmup_ratio * (nts : ℚ))))
      (pyInt (cfg.warmup_ratio * (nts : ℚ))) := by
  norm_num [lr_scheduler, hk] at hf
  rw [if_neg (by decide : ¬("linear" = "constant"))] at hf
  rw [if_neg (by decide : ¬("linear" = "cosine"))] at hf
  norm_num at hf
  split at hf
  · next h => exact absurd h hwsne
  · injection hf with h
    exact h.symm

lemma join_ramp_eval (lr : ℝ) (s2 : ℕ → ℝ) (ws : ℤ) (t : ℕ) (ht : (t : ℤ) < ws) :
    join_schedules2 (linear_schedule 0 lr ws) s2 ws t = lr * (t : ℝ) / ((ws : ℤ) : ℝ) := by
  unfold join_schedules2
  rw [if_pos ht]
  unfold linear_schedule
  rw [if_neg (by omega : ¬(ws ≤ 0))]
  have h0 : max ((t : ℕ) : ℝ) 0 = ((t : ℕ) : ℝ) := max_eq_left (Nat.cast_nonneg t)
  have h1 : ((t : ℕ) : ℝ) ≤ ((ws : ℤ) : ℝ) := by exact_mod_cast ht.le
  rw [h0, min_eq_left h1]
  ring

lemma join_past_eval (lr : ℝ) (s2 : ℕ → ℝ) (ws : ℤ) (t : ℕ) (ht : ws ≤ (t : ℤ)) :
    join_schedules2 (linear_schedule 0 lr ws) s2 ws t = s2 ((t : ℤ) - ws).toNat := by
  unfold join_schedules2
  rw [if_neg (not_lt.mpr ht)]

lemma cosine_decay_at_end (lr alpha : ℝ) (ds : ℤ) (hds : 0 < ds) :
    cosine_decay_schedule lr ds alpha ds.toNat = lr * alpha := by
  unfold cosine_decay_schedule
  rw [show ((ds.toNat : ℕ) : ℝ) = ((ds : ℤ) : ℝ) from by
    exact_mod_cast congrArg (Int.cast : ℤ → ℝ) (Int.toNat_of_nonneg hds.le)]
  rw [min_self, mul_div_assoc, div_self (by exact_mod_cast hds.ne'), mul_one,
    Real.cos_pi]
  ring

lemma linear_fallback (lr minlr : ℝ) (ts : ℤ) (hts : ts ≤ 0) (c : ℕ) :
    linear_schedule lr minlr ts c = lr := by
  unfold linear_schedule
  rw [if_pos hts]

lemma linear_at_end (lr minlr : ℝ) (ws nts : ℤ) (hws : 0 < ws) (hts : 2 * ws < nts) :
    linear_schedule lr minlr (nts - 2 * ws) (nts - ws).toNat = minlr := by
  unfold linear_schedule
  rw [if_neg (by omega : ¬(nts - 2 * ws ≤ 0))]
  have hv : (((nts - ws).toNat : ℕ) : ℝ) = ((nts : ℤ) : ℝ) - ((ws : ℤ) : ℝ) := by
    rw [show (((nts - ws).toNat : ℕ) : ℝ) = (((nts - ws) : ℤ) : ℝ) from by
      exact_mod_cast congrArg (Int.cast : ℤ → ℝ) (Int.toNat_of_nonneg (by omega))]
    push_cast
    ring
  rw [hv]
  have h0 : max (((nts : ℤ) : ℝ) - ((ws : ℤ) : ℝ)) 0 =
      ((nts : ℤ) : ℝ) - ((ws : ℤ) : ℝ) := by
    rw [max_eq_left]
    have : (0 : ℝ) ≤ (((nts - ws) : ℤ) : ℝ) := by exact_mod_cast (by omega : (0:ℤ) ≤ nts - ws)
    push_cast at this
    linarith
  rw [h0]
  have hmin : min (((nts : ℤ) : ℝ) - ((ws : ℤ) : ℝ)) (((nts - 2 * ws : ℤ)) : ℝ) =
      (((nts - 2 * ws : ℤ)) : ℝ) := by
    rw [min_eq_right]
    have : ((nts - 2 * ws : ℤ) : ℝ) ≤ (((nts - ws) : ℤ) : ℝ) := by
      exact_mod_cast (by omega : nts - 2 * ws ≤ nts - ws)
    push_cast at this ⊢
    linarith
  rw [hmin]
  have hne2 : ((nts - 2 * ws : ℤ) : ℝ) ≠ 0 := by
    exact_mod_cast (by omega : nts - 2 * ws ≠ 0)
  rw [div_self hne2]
  ring

/-- Claim C3 as amended by the code: `warmup_steps = int(warmup_ratio *
num_train_steps)` (truncation, not rounding); the schedule ramps
linearly 0→lr over those steps; past warmup, `constant` stays at the
learning rate, `cosine` decays over `num_train_steps - warmup_steps`
steps to `learning_rate * min_lr_ratio`, and `linear` decays over
`num_train_steps - 2 * warmup_steps` steps (not the claimed
`num_train_steps - warmup_steps`) to `learning_rate * min_lr_ratio` when
that count is positive; when it is non-positive, optax's
polynomial-schedule fallback keeps the post-warmup value constant at the
learning rate. -/
theorem C3_amended_lr_schedule (cfg : OptimizerConfig) (nts : ℕ) (f : ℕ → ℝ) (ws : ℤ)
    (hws : ws = pyInt (cfg.warmup_ratio * (nts : ℚ)))
    (hpos : 0 < ws) (hlt : ws < (nts : ℤ))
    (hf : lr_scheduler cfg nts = .ok f) :
    (∀ t : ℕ, (t : ℤ) < ws →
      f t = (cfg.learning_rate : ℝ) * (t : ℝ) / ((ws : ℤ) : ℝ)) ∧
    (cfg.lr_schedule = "constant" → ∀ t : ℕ, ws ≤ (t : ℤ) →
      f t = (cfg.learning_rate : ℝ)) ∧
    (cfg.lr_schedule = "cosine" → ∀ t : ℕ, ws ≤ (t : ℤ) →
      f t = cosine_decay_schedule (cfg.learning_rate : ℝ) ((nts : ℤ) - ws)
        (cfg.min_lr_ratio : ℝ) ((t : ℤ) - ws).toNat) ∧
    (cfg.lr_schedule = "linear" → ∀ t : ℕ, ws ≤ (t : ℤ) →
      f t = linear_schedule (cfg.learning_rate : ℝ)
        ((cfg.learning_rate : ℝ) * (cfg.min_lr_ratio : ℝ)) ((nts : ℤ) - 2 * ws)
        ((t : ℤ) - ws).toNat) ∧
    (cfg.lr_schedule = "cosine" →
      f nts = (cfg.learning_rate : ℝ) * (cfg.min_lr_ratio : ℝ)) ∧
    (cfg.lr_schedule = "linear" → 2 * ws < (nts : ℤ) →
      f nts = (cfg.learning_rate : ℝ) * (cfg.min_lr_ratio : ℝ)) ∧
    (cfg.lr_schedule = "linear" → (nts : ℤ) - 2 * ws ≤ 0 → ∀ t : ℕ, ws ≤ (t : ℤ) →
      f t = (cfg.learning_rate : ℝ)) := by
  have hwsne : pyInt (cfg.warmup_ratio * (nts : ℚ)) ≠ 0 := by
    rw [← hws]
    omega
  refine ⟨?_, ?_, ?_, ?_, ?_, ?_, ?_⟩
  · intro t ht
    rcases lr_scheduler_kind_valid cfg nts f hf with hk | hk | hk
    · rw [lr_scheduler_shape_constant cfg nts f hk hwsne hf, ← hws]
      exact join_ramp_eval _ _ _ _ ht
    · rw [lr_scheduler_shape_cosine cfg nts f hk hwsne hf, ← hws]
      exact join_ramp_eval _ _ _ _ ht
    · rw [lr_scheduler_shape_linear cfg nts f hk hwsne hf, ← hws]
      exact join_ramp_eval _ _ _ _ ht
  · intro hk t ht
    rw [lr_scheduler_shape_constant cfg nts f hk hwsne hf, ← hws,
      join_past_eval _ _ _ _ ht]
    rfl
  · intro hk t ht
    rw [lr_scheduler_shape_cosine cfg nts f hk hwsne hf, ← hws,
      join_past_eval _ _ _ _ ht]
  · intro hk t ht
    rw [lr_scheduler_shape_linear cfg nts f hk hwsne hf, ← hws,
      join_past_eval _ _ _ _ ht,
      show (nts : ℤ) - ws - ws = (nts : ℤ) - 2 * ws from by ring]
  · intro hk
    rw [lr_scheduler_shape_cosine cfg nts f hk hwsne hf, ← hws,
      join_past_eval _ _ _ _ hlt.le]
    exact cosine_decay_at_end _ _ _ (by omega)
  · intro hk hts
    rw [lr_scheduler_shape_linear cfg nts f hk hwsne hf, ← hws,
      join_past_eval _ _ _ _ hlt.le,
      show (nts : ℤ) - ws - ws = (nts : ℤ) - 2 * ws from by ring,
      linear_at_end _ _ ws (nts : ℤ) hpos hts]
  · intro hk hts t ht
    rw [lr_scheduler_shape_linear cfg nts f hk hwsne hf, ← hws,
      join_past_eval _ _ _ _ ht,
      show (nts : ℤ) - ws - ws = (nts : ℤ) - 2 * ws from by ring,
      linear_fallback _ _ _ hts]

/-- Witness for the amended C3 at a concrete config: learning rate 1,
warmup ratio 1/2, constant decay, 4 training steps, so warmup lasts
`int(2.0) = 2` steps. -/
theorem C3_amended_lr_schedule_witness :
    (0 : ℤ) < 2 ∧ (2 : ℤ) < ((4 : ℕ) : ℤ) ∧
    ((∀ t : ℕ, (t : ℤ) < 2 →
        join_schedules2 (linear_schedule 0 ((1 : ℚ) : ℝ) 2)
          (constant_schedule ((1 : ℚ) : ℝ)) 2 t =
          ((1 : ℚ) : ℝ) * (t : ℝ) / (((2 : ℤ)) : ℝ)) ∧
      ("constant" = "constant" → ∀ t : ℕ, (2 : ℤ) ≤ (t : ℤ) →
        join_schedules2 (linear_schedule 0 ((1 : ℚ) : ℝ) 2)
          (constant_schedule ((1 : ℚ) : ℝ)) 2 t = ((1 : ℚ) : ℝ)) ∧
      ("constant" = "cosine" → ∀ t : ℕ, (2 : ℤ) ≤ (t : ℤ) →
        join_schedules2 (linear_schedule 0 ((1 : ℚ) : ℝ) 2)
          (constant_schedule ((1 : ℚ) : ℝ)) 2 t =
          cosine_decay_schedule ((1 : ℚ) : ℝ) (((4 : ℕ) : ℤ) - 2) ((0 : ℚ) : ℝ)
            ((t : ℤ) - 2).toNat) ∧
      ("constant" = "linear" → ∀ t : ℕ, (2 : ℤ) ≤ (t : ℤ) →
        join_schedules2 (linear_schedule 0 ((1 : ℚ) : ℝ) 2)
          (constant_schedule ((1 : ℚ) : ℝ)) 2 t =
          linear_schedule ((1 : ℚ) : ℝ) (((1 : ℚ) : ℝ) * ((0 : ℚ) : ℝ))
            (((4 : ℕ) : ℤ) - 2 * 2) ((t : ℤ) - 2).toNat) ∧
      ("constant" = "cosine" →
        join_schedules2 (linear_schedule 0 ((1 : ℚ) : ℝ) 2)
          (constant_schedule ((1 : ℚ) : ℝ)) 2 4 = ((1 : ℚ) : ℝ) * ((0 : ℚ) : ℝ)) ∧
      ("constant" = "linear" → 2 * 2 < ((4 : ℕ) : ℤ) →
        join_schedules2 (linear_schedule 0 ((1 : ℚ) : ℝ) 2)
          (constant_schedule ((1 : ℚ) : ℝ)) 2 4 = ((1 : ℚ) : ℝ) * ((0 : ℚ) : ℝ)) ∧
      ("constant" = "linear" → ((4 : ℕ) : ℤ) - 2 * 2 ≤ 0 → ∀ t : ℕ, (2 : ℤ) ≤ (t : ℤ) →
        join_schedules2 (linear_schedule 0 ((1 : ℚ) : ℝ) 2)
          (constant_schedule ((1 : ℚ) : ℝ)) 2 t = ((1 : ℚ) : ℝ))) := by
  refine ⟨by norm_num, by norm_num, ?_⟩
  exact C3_amended_lr_schedule
    (OptimizerConfig.mk 1 0 (9/10) (999/1000) 0 (some 1) 0 (1/2) "constant") 4
    (join_schedules2 (linear_schedule 0 ((1 : ℚ) : ℝ) 2)
      (constant_schedule ((1 : ℚ) : ℝ)) 2) 2
    (by norm_num [pyInt]) (by norm_num) (by norm_num)
    (by norm_num [lr_scheduler, pyInt])

end Levanter
